import Mathlib

/-!
Verification of the multishiva core against its specification.

The Rust sources are shallowly embedded: machine integers become `Nat`/`Int`
with explicit ranges, byte buffers become `List Nat` (each element < 256),
`HashMap`s become association lists, and the asynchronous loops become pure
transition functions folded over their input streams.
-/

set_option maxHeartbeats 1000000
set_option maxRecDepth 8000

namespace Multishiva

instance {ε α : Type} [DecidableEq ε] [DecidableEq α] : DecidableEq (Except ε α) := fun x y =>
  match x, y with
  | .ok a, .ok b =>
    if h : a = b then isTrue (by rw [h])
    else isFalse (fun hc => by injection hc; contradiction)
  | .error a, .error b =>
    if h : a = b then isTrue (by rw [h])
    else isFalse (fun hc => by injection hc; contradiction)
  | .ok _, .error _ => isFalse (fun hc => Except.noConfusion hc)
  | .error _, .ok _ => isFalse (fun hc => Except.noConfusion hc)

/-! ## Big-endian byte encoding

Models the `to_be_bytes` / `from_be_bytes` calls used for the 4-byte frame
length prefix in `src/core/network.rs` and for multi-byte MessagePack
integer payloads. -/

/-- `beBytes k n` is the big-endian `k`-byte encoding of `n` (mod `256^k`). -/
def beBytes : Nat → Nat → List Nat
  | 0, _ => []
  | k + 1, n => (n / 256 ^ k) % 256 :: beBytes k (n % 256 ^ k)

/-- Value of a big-endian byte list (`u32::from_be_bytes` and friends). -/
def beVal (l : List Nat) : Nat := l.foldl (fun a b => a * 256 + b) 0

@[simp] theorem beBytes_length (k n : Nat) : (beBytes k n).length = k := by
  induction k generalizing n with
  | zero => rfl
  | succ k ih => simp [beBytes, ih]

theorem beVal_foldl (k n a : Nat) (h : n < 256 ^ k) :
    List.foldl (fun a b => a * 256 + b) a (beBytes k n) = a * 256 ^ k + n := by
  induction k generalizing n a with
  | zero =>
    interval_cases n
    simp [beBytes]
  | succ k ih =>
    have hlt : n % 256 ^ k < 256 ^ k := Nat.mod_lt _ (Nat.pos_pow_of_pos _ (by norm_num))
    have hdiv : n / 256 ^ k < 256 := by
      have : n < 256 * 256 ^ k := by
        have := h
        rw [pow_succ] at this
        omega
      exact Nat.div_lt_of_lt_mul (by omega)
    have hmod : n / 256 ^ k % 256 = n / 256 ^ k := Nat.mod_eq_of_lt hdiv
    simp only [beBytes, List.foldl_cons]
    rw [ih _ _ hlt]
    have hdm : 256 ^ k * (n / 256 ^ k) + n % 256 ^ k = n := Nat.div_add_mod n (256 ^ k)
    rw [hmod, pow_succ]
    ring_nf
    ring_nf at hdm
    omega

theorem beVal_beBytes (k n : Nat) (h : n < 256 ^ k) : beVal (beBytes k n) = n := by
  have := beVal_foldl k n 0 h
  simpa [beVal] using this

/-! ## UTF-8

`std::str::from_utf8` (used by the handshake in `src/core/network.rs`) and
the MessagePack string decoding both validate UTF-8.  We model code points
as `Nat` and Rust `String`s as Lean `String`s (both are sequences of Unicode
scalar values). -/

/-- UTF-8 encoding of one Unicode scalar value. -/
def utf8EncodeCp (c : Nat) : List Nat :=
  if c < 128 then [c]
  else if c < 2048 then [192 + c / 64, 128 + c % 64]
  else if c < 65536 then [224 + c / 4096, 128 + c / 64 % 64, 128 + c % 64]
  else [240 + c / 262144, 128 + c / 4096 % 64, 128 + c / 64 % 64, 128 + c % 64]

/-- The UTF-8 bytes of a string (what `String::as_bytes` exposes in Rust). -/
def utf8Bytes (s : String) : List Nat :=
  (s.data.map Char.toNat).flatMap utf8EncodeCp

/-- A Unicode scalar value: in range and not a surrogate. -/
def ValidCp (c : Nat) : Prop := c < 1114112 ∧ (c < 55296 ∨ 57344 ≤ c)

/-- Decode one UTF-8 code point, rejecting overlong forms and surrogates
(the validation `std::str::from_utf8` performs). -/
def utf8DecodeCp : List Nat → Option (Nat × List Nat)
  | [] => none
  | b0 :: r =>
    if b0 < 128 then some (b0, r)
    else if b0 < 194 then none
    else if b0 < 224 then
      match r with
      | b1 :: r1 =>
        if 128 ≤ b1 ∧ b1 < 192 then some ((b0 - 192) * 64 + (b1 - 128), r1) else none
      | [] => none
    else if b0 < 240 then
      match r with
      | b1 :: b2 :: r2 =>
        if (128 ≤ b1 ∧ b1 < 192) ∧ (128 ≤ b2 ∧ b2 < 192) then
          let c := (b0 - 224) * 4096 + (b1 - 128) * 64 + (b2 - 128)
          if 2048 ≤ c ∧ ¬(55296 ≤ c ∧ c < 57344) then some (c, r2) else none
        else none
      | _ => none
    else if b0 < 245 then
      match r with
      | b1 :: b2 :: b3 :: r3 =>
        if (128 ≤ b1 ∧ b1 < 192) ∧ (128 ≤ b2 ∧ b2 < 192) ∧ (128 ≤ b3 ∧ b3 < 192) then
          let c := (b0 - 240) * 262144 + (b1 - 128) * 4096 + (b2 - 128) * 64 + (b3 - 128)
          if 65536 ≤ c ∧ c < 1114112 then some (c, r3) else none
        else none
      | _ => none
    else none

theorem utf8DecodeCp_encode (c : Nat) (hc : ValidCp c) (r : List Nat) :
    utf8DecodeCp (utf8EncodeCp c ++ r) = some (c, r) := by
  obtain ⟨h1, h2⟩ := hc
  by_cases ha : c < 128
  · simp [utf8EncodeCp, utf8DecodeCp, ha]
  · by_cases hb : c < 2048
    · have e1 : ¬(192 + c / 64 < 128) := by omega
      have e2 : ¬(192 + c / 64 < 194) := by omega
      have e3 : 192 + c / 64 < 224 := by omega
      simp only [utf8EncodeCp, if_neg ha, if_pos hb, List.cons_append, List.nil_append,
        utf8DecodeCp, if_neg e1, if_neg e2, if_pos e3]
      have : 128 ≤ 128 + c % 64 ∧ 128 + c % 64 < 192 := by omega
      rw [if_pos this]
      congr 1
      congr 1
      omega
    · by_cases hc3 : c < 65536
      · have e1 : ¬(224 + c / 4096 < 128) := by omega
        have e2 : ¬(224 + c / 4096 < 194) := by omega
        have e3 : ¬(224 + c / 4096 < 224) := by omega
        have e4 : 224 + c / 4096 < 240 := by omega
        simp only [utf8EncodeCp, if_neg ha, if_neg hb, if_pos hc3, List.cons_append,
          List.nil_append, utf8DecodeCp, if_neg e1, if_neg e2, if_neg e3, if_pos e4]
        have g1 : (128 ≤ 128 + c / 64 % 64 ∧ 128 + c / 64 % 64 < 192) ∧
            (128 ≤ 128 + c % 64 ∧ 128 + c % 64 < 192) := by omega
        rw [if_pos g1]
        have hval : (224 + c / 4096 - 224) * 4096 + (128 + c / 64 % 64 - 128) * 64 +
            (128 + c % 64 - 128) = c := by omega
        simp only [hval]
        have g2 : 2048 ≤ c ∧ ¬(55296 ≤ c ∧ c < 57344) := by omega
        rw [if_pos g2]
      · have e1 : ¬(240 + c / 262144 < 128) := by omega
        have e2 : ¬(240 + c / 262144 < 194) := by omega
        have e3 : ¬(240 + c / 262144 < 224) := by omega
        have e4 : ¬(240 + c / 262144 < 240) := by omega
        have e5 : 240 + c / 262144 < 245 := by omega
        simp only [utf8EncodeCp, if_neg ha, if_neg hb, if_neg hc3, List.cons_append,
          List.nil_append, utf8DecodeCp, if_neg e1, if_neg e2, if_neg e3, if_neg e4, if_pos e5]
        have g1 : (128 ≤ 128 + c / 4096 % 64 ∧ 128 + c / 4096 % 64 < 192) ∧
            (128 ≤ 128 + c / 64 % 64 ∧ 128 + c / 64 % 64 < 192) ∧
            (128 ≤ 128 + c % 64 ∧ 128 + c % 64 < 192) := by omega
        rw [if_pos g1]
        have hval : (240 + c / 262144 - 240) * 262144 + (128 + c / 4096 % 64 - 128) * 4096 +
            (128 + c / 64 % 64 - 128) * 64 + (128 + c % 64 - 128) = c := by omega
        simp only [hval]
        have g2 : 65536 ≤ c ∧ c < 1114112 := by omega
        rw [if_pos g2]

theorem utf8EncodeCp_length_pos (c : Nat) : 0 < (utf8EncodeCp c).length := by
  unfold utf8EncodeCp
  split
  · simp
  · split
    · simp
    · split <;> simp

/-- Fuel-indexed decoder of a whole byte list into code points. -/
def utf8DecodeListFuel : Nat → List Nat → Option (List Nat)
  | _, [] => some []
  | 0, _ :: _ => none
  | fuel + 1, l =>
    match utf8DecodeCp l with
    | none => none
    | some (c, r) => (utf8DecodeListFuel fuel r).map (fun cs => c :: cs)

/-- Decode a whole byte list into a list of code points; `none` means the
bytes are not valid UTF-8. -/
def utf8DecodeList (l : List Nat) : Option (List Nat) :=
  utf8DecodeListFuel l.length l

/-- `std::str::from_utf8(...).is_ok()` on a byte list. -/
def utf8ValidB (l : List Nat) : Bool := (utf8DecodeList l).isSome

theorem utf8DecodeListFuel_encode :
    ∀ (cps : List Nat) (fuel : Nat), (∀ c ∈ cps, ValidCp c) →
    (cps.flatMap utf8EncodeCp).length ≤ fuel →
    utf8DecodeListFuel fuel (cps.flatMap utf8EncodeCp) = some cps := by
  intro cps
  induction cps with
  | nil => intro fuel _ _; cases fuel <;> simp [utf8DecodeListFuel]
  | cons c cs ih =>
    intro fuel hv hf
    have hc : ValidCp c := hv c (by simp)
    have hpos : 0 < (utf8EncodeCp c).length := utf8EncodeCp_length_pos c
    rw [List.flatMap_cons] at hf ⊢
    rw [List.length_append] at hf
    obtain ⟨fuel', rfl⟩ : ∃ f, fuel = f + 1 := by
      cases fuel with
      | zero => omega
      | succ f => exact ⟨f, rfl⟩
    have hne : utf8EncodeCp c ++ cs.flatMap utf8EncodeCp ≠ [] := by
      intro h
      have hlen := congrArg List.length h
      rw [List.length_append] at hlen
      simp only [List.length_nil] at hlen
      omega
    obtain ⟨b, bs, hbs⟩ : ∃ b bs, utf8EncodeCp c ++ cs.flatMap utf8EncodeCp = b :: bs := by
      cases h : utf8EncodeCp c ++ cs.flatMap utf8EncodeCp with
      | nil => exact absurd h hne
      | cons b bs => exact ⟨b, bs, rfl⟩
    rw [hbs]
    show (match utf8DecodeCp (b :: bs) with
      | none => none
      | some (c, r) => (utf8DecodeListFuel fuel' r).map (fun cs => c :: cs)) = some (c :: cs)
    rw [← hbs, utf8DecodeCp_encode c hc]
    have : utf8DecodeListFuel fuel' (cs.flatMap utf8EncodeCp) = some cs :=
      ih fuel' (fun x hx => hv x (by simp [hx])) (by omega)
    simp [this]

theorem utf8DecodeList_utf8Bytes (s : String) :
    utf8DecodeList (utf8Bytes s) = some (s.data.map Char.toNat) := by
  have hv : ∀ c ∈ s.data.map Char.toNat, ValidCp c := by
    intro c hc
    rw [List.mem_map] at hc
    obtain ⟨ch, _, rfl⟩ := hc
    have hval : ch.toNat < 55296 ∨ (57343 < ch.toNat ∧ ch.toNat < 1114112) := ch.valid
    unfold ValidCp
    omega
  exact utf8DecodeListFuel_encode _ _ hv le_rfl

/-! ## MessagePack integers

The wire codec in `src/core/network.rs` is `rmp_serde::to_vec` /
`rmp_serde::from_slice`.  Modelled from the spec (the `rmp` crate is not
part of the repository sources): integers use the most compact MessagePack
representation, preferring unsigned markers for non-negative values. -/

theorem take_len_append (l r : List Nat) : (l ++ r).take l.length = l := by
  simp

theorem drop_len_append (l r : List Nat) : (l ++ r).drop l.length = r := by
  simp

theorem take_beBytes_append (k n : Nat) (r : List Nat) :
    (beBytes k n ++ r).take k = beBytes k n := by
  have h := take_len_append (beBytes k n) r
  rwa [beBytes_length] at h

theorem drop_beBytes_append (k n : Nat) (r : List Nat) :
    (beBytes k n ++ r).drop k = r := by
  have h := drop_len_append (beBytes k n) r
  rwa [beBytes_length] at h

/-- `rmp::encode::write_sint`: most compact encoding of a signed integer. -/
def writeSint (v : Int) : List Nat :=
  if -32 ≤ v ∧ v < 0 then [(v + 256).toNat]
  else if -128 ≤ v ∧ v < -32 then [208, (v + 256).toNat]
  else if -32768 ≤ v ∧ v < -128 then 209 :: beBytes 2 (v + 65536).toNat
  else if -2147483648 ≤ v ∧ v < -32768 then 210 :: beBytes 4 (v + 4294967296).toNat
  else if v < -2147483648 then 211 :: beBytes 8 (v + 18446744073709551616).toNat
  else if 0 ≤ v ∧ v < 128 then [v.toNat]
  else if v < 256 then [204, v.toNat]
  else if v < 65536 then 205 :: beBytes 2 v.toNat
  else if v < 4294967296 then 206 :: beBytes 4 v.toNat
  else 207 :: beBytes 8 v.toNat

/-- Read one unsigned byte payload. -/
def readU8 : List Nat → Option (Int × List Nat)
  | x :: r1 => some ((x : Int), r1)
  | [] => none

/-- Read one signed byte payload (two's complement). -/
def readI8 : List Nat → Option (Int × List Nat)
  | x :: r1 => some (if x < 128 then (x : Int) else (x : Int) - 256, r1)
  | [] => none

/-- Read a `k`-byte big-endian unsigned payload. -/
def readUBE (k : Nat) (r : List Nat) : Option (Int × List Nat) :=
  if k ≤ r.length then some ((beVal (r.take k) : Int), r.drop k) else none

/-- Read a `k`-byte big-endian two's-complement payload. -/
def readIBE (k half full : Nat) (r : List Nat) : Option (Int × List Nat) :=
  if k ≤ r.length then
    let n := beVal (r.take k)
    some (if n < half then (n : Int) else (n : Int) - full, r.drop k)
  else none

/-- MessagePack integer decoding, as performed when deserializing a signed
integer field; consumes one encoded integer and returns the rest. -/
def readInt : List Nat → Option (Int × List Nat)
  | [] => none
  | b :: r =>
    if b < 128 then some ((b : Int), r)
    else if 224 ≤ b ∧ b < 256 then some ((b : Int) - 256, r)
    else if b = 204 then readU8 r
    else if b = 205 then readUBE 2 r
    else if b = 206 then readUBE 4 r
    else if b = 207 then readUBE 8 r
    else if b = 208 then readI8 r
    else if b = 209 then readIBE 2 32768 65536 r
    else if b = 210 then readIBE 4 2147483648 4294967296 r
    else if b = 211 then readIBE 8 9223372036854775808 18446744073709551616 r
    else none

theorem readUBE_beBytes (k n : Nat) (r : List Nat) (hn : n < 256 ^ k) :
    readUBE k (beBytes k n ++ r) = some ((n : Int), r) := by
  unfold readUBE
  rw [if_pos (by simp [List.length_append])]
  rw [take_beBytes_append, drop_beBytes_append, beVal_beBytes k n hn]

theorem readIBE_beBytes (k half full n : Nat) (r : List Nat) (hn : n < 256 ^ k) :
    readIBE k half full (beBytes k n ++ r) =
      some (if n < half then (n : Int) else (n : Int) - full, r) := by
  unfold readIBE
  rw [if_pos (by simp [List.length_append])]
  rw [take_beBytes_append, drop_beBytes_append, beVal_beBytes k n hn]

theorem readInt_writeSint (v : Int) (r : List Nat)
    (hlo : -9223372036854775808 ≤ v) (hhi : v < 18446744073709551616) :
    readInt (writeSint v ++ r) = some (v, r) := by
  unfold writeSint
  by_cases h1 : -32 ≤ v ∧ v < 0
  · rw [if_pos h1]
    simp only [List.cons_append, List.nil_append, readInt]
    rw [if_neg (by omega), if_pos (by omega : 224 ≤ (v + 256).toNat ∧ (v + 256).toNat < 256)]
    have hv : ((v + 256).toNat : Int) - 256 = v := by omega
    rw [hv]
  · rw [if_neg h1]
    by_cases h2 : -128 ≤ v ∧ v < -32
    · rw [if_pos h2]
      simp only [List.cons_append, List.nil_append, readInt]
      norm_num
      simp only [readI8]
      rw [if_neg (by omega : ¬((v + 256).toNat < 128))]
      have hv : ((v + 256).toNat : Int) - 256 = v := by omega
      rw [hv]
    · rw [if_neg h2]
      by_cases h3 : -32768 ≤ v ∧ v < -128
      · rw [if_pos h3]
        simp only [List.cons_append, readInt]
        norm_num
        rw [readIBE_beBytes 2 32768 65536 _ r (by omega)]
        rw [if_neg (by omega : ¬((v + 65536).toNat < 32768))]
        simp only [Option.some.injEq, Prod.mk.injEq]
        exact ⟨by omega, trivial⟩
      · rw [if_neg h3]
        by_cases h4 : -2147483648 ≤ v ∧ v < -32768
        · rw [if_pos h4]
          simp only [List.cons_append, readInt]
          norm_num
          rw [readIBE_beBytes 4 2147483648 4294967296 _ r (by omega)]
          rw [if_neg (by omega : ¬((v + 4294967296).toNat < 2147483648))]
          simp only [Option.some.injEq, Prod.mk.injEq]
          exact ⟨by omega, trivial⟩
        · rw [if_neg h4]
          by_cases h5 : v < -2147483648
          · rw [if_pos h5]
            simp only [List.cons_append, readInt]
            norm_num
            rw [readIBE_beBytes 8 9223372036854775808 18446744073709551616 _ r (by omega)]
            rw [if_neg (by omega : ¬((v + 18446744073709551616).toNat < 9223372036854775808))]
            simp only [Option.some.injEq, Prod.mk.injEq]
            exact ⟨by omega, trivial⟩
          · rw [if_neg h5]
            by_cases h6 : 0 ≤ v ∧ v < 128
            · rw [if_pos h6]
              simp only [List.cons_append, List.nil_append, readInt]
              rw [if_pos (by omega : v.toNat < 128)]
              have hv : (v.toNat : Int) = v := by omega
              rw [hv]
            · rw [if_neg h6]
              by_cases h7 : v < 256
              · rw [if_pos h7]
                simp only [List.cons_append, List.nil_append, readInt]
                norm_num
                simp only [readU8]
                have hv : (v.toNat : Int) = v := by omega
                rw [hv]
              · rw [if_neg h7]
                by_cases h8 : v < 65536
                · rw [if_pos h8]
                  simp only [List.cons_append, readInt]
                  norm_num
                  rw [readUBE_beBytes 2 _ r (by omega)]
                  have hv : (v.toNat : Int) = v := by omega
                  rw [hv]
                · rw [if_neg h8]
                  by_cases h9 : v < 4294967296
                  · rw [if_pos h9]
                    simp only [List.cons_append, readInt]
                    norm_num
                    rw [readUBE_beBytes 4 _ r (by omega)]
                    have hv : (v.toNat : Int) = v := by omega
                    rw [hv]
                  · rw [if_neg h9]
                    simp only [List.cons_append, readInt]
                    norm_num
                    rw [readUBE_beBytes 8 _ r (by omega)]
                    have hv : (v.toNat : Int) = v := by omega
                    rw [hv]

/-! ## MessagePack strings -/

/-- `rmp::encode::write_str`: shortest string header, then the UTF-8 bytes. -/
def writeStr (s : String) : List Nat :=
  (if (utf8Bytes s).length < 32 then [160 + (utf8Bytes s).length]
   else if (utf8Bytes s).length < 256 then [217, (utf8Bytes s).length]
   else if (utf8Bytes s).length < 65536 then 218 :: beBytes 2 (utf8Bytes s).length
   else 219 :: beBytes 4 (utf8Bytes s).length) ++ utf8Bytes s

/-- Read `n` string bytes and validate UTF-8 (Rust decodes into a `String`). -/
def readStrBody (n : Nat) (r : List Nat) : Option (String × List Nat) :=
  if n ≤ r.length then
    (utf8DecodeList (r.take n)).map (fun cps => (⟨cps.map Char.ofNat⟩, r.drop n))
  else none

/-- MessagePack string decoding. -/
def readStr : List Nat → Option (String × List Nat)
  | [] => none
  | b :: r =>
    if 160 ≤ b ∧ b < 192 then readStrBody (b - 160) r
    else if b = 217 then
      match r with
      | n :: r1 => readStrBody n r1
      | [] => none
    else if b = 218 then
      if 2 ≤ r.length then readStrBody (beVal (r.take 2)) (r.drop 2) else none
    else if b = 219 then
      if 4 ≤ r.length then readStrBody (beVal (r.take 4)) (r.drop 4) else none
    else none

theorem readStrBody_utf8Bytes (s : String) (r : List Nat) :
    readStrBody (utf8Bytes s).length (utf8Bytes s ++ r) = some (s, r) := by
  unfold readStrBody
  rw [if_pos (by simp [List.length_append])]
  rw [take_len_append, drop_len_append, utf8DecodeList_utf8Bytes]
  simp [List.map_map, Function.comp_def]

theorem readStr_writeStr (s : String) (r : List Nat)
    (h : (utf8Bytes s).length < 4294967296) :
    readStr (writeStr s ++ r) = some (s, r) := by
  unfold writeStr
  by_cases h1 : (utf8Bytes s).length < 32
  · rw [if_pos h1]
    simp only [List.cons_append, List.nil_append, List.append_assoc, readStr]
    rw [if_pos (by omega : 160 ≤ 160 + (utf8Bytes s).length ∧ 160 + (utf8Bytes s).length < 192)]
    have hn : 160 + (utf8Bytes s).length - 160 = (utf8Bytes s).length := by omega
    rw [hn, readStrBody_utf8Bytes]
  · rw [if_neg h1]
    by_cases h2 : (utf8Bytes s).length < 256
    · rw [if_pos h2]
      simp only [List.cons_append, List.nil_append, List.append_assoc, readStr]
      rw [if_neg (by omega), if_pos trivial, readStrBody_utf8Bytes]
    · rw [if_neg h2]
      by_cases h3 : (utf8Bytes s).length < 65536
      · rw [if_pos h3]
        simp only [List.cons_append, List.append_assoc, readStr]
        norm_num
        rw [beVal_beBytes 2 _ (by omega : (utf8Bytes s).length < 256 ^ 2)]
        rw [readStrBody_utf8Bytes]
      · rw [if_neg h3]
        simp only [List.cons_append, List.append_assoc, readStr]
        norm_num
        rw [beVal_beBytes 4 _ (by omega : (utf8Bytes s).length < 256 ^ 4)]
        rw [readStrBody_utf8Bytes]

/-! ## Event model (`src/core/events.rs`) -/

/-- Mouse buttons (`MouseButton` in `src/core/events.rs`). -/
inductive MouseButton
  | Left
  | Right
  | Middle
deriving DecidableEq, Repr

/-- Keyboard keys (`Key` in `src/core/events.rs`): 26 letters, 8 modifiers,
5 specials, in source declaration order. -/
inductive Key
  | KeyA | KeyB | KeyC | KeyD | KeyE | KeyF | KeyG | KeyH | KeyI | KeyJ
  | KeyK | KeyL | KeyM | KeyN | KeyO | KeyP | KeyQ | KeyR | KeyS | KeyT
  | KeyU | KeyV | KeyW | KeyX | KeyY | KeyZ
  | ControlLeft | ControlRight | ShiftLeft | ShiftRight
  | AltLeft | AltRight | MetaLeft | MetaRight
  | Escape | Return | Space | Backspace | Tab
deriving DecidableEq, Repr

/-- The canonical event set (`Event` in `src/core/events.rs`), in source
declaration order (the serde variant index is the position here). -/
inductive Event
  | MouseMove (x y : Int)
  | MouseClick (button : MouseButton)
  | MouseButtonPress (button : MouseButton)
  | MouseButtonRelease (button : MouseButton)
  | MouseScroll (delta_x delta_y : Int)
  | KeyPress (key : Key)
  | KeyRelease (key : Key)
  | FocusGrant (target : String) (x y : Int)
  | FocusRelease
  | Heartbeat
deriving DecidableEq, Repr

/-- serde variant index of a mouse button. -/
def btnIdx : MouseButton → Nat
  | .Left => 0
  | .Right => 1
  | .Middle => 2

/-- serde variant index of a key. -/
def keyIdx : Key → Nat
  | .KeyA => 0 | .KeyB => 1 | .KeyC => 2 | .KeyD => 3 | .KeyE => 4
  | .KeyF => 5 | .KeyG => 6 | .KeyH => 7 | .KeyI => 8 | .KeyJ => 9
  | .KeyK => 10 | .KeyL => 11 | .KeyM => 12 | .KeyN => 13 | .KeyO => 14
  | .KeyP => 15 | .KeyQ => 16 | .KeyR => 17 | .KeyS => 18 | .KeyT => 19
  | .KeyU => 20 | .KeyV => 21 | .KeyW => 22 | .KeyX => 23 | .KeyY => 24
  | .KeyZ => 25
  | .ControlLeft => 26 | .ControlRight => 27 | .ShiftLeft => 28 | .ShiftRight => 29
  | .AltLeft => 30 | .AltRight => 31 | .MetaLeft => 32 | .MetaRight => 33
  | .Escape => 34 | .Return => 35 | .Space => 36 | .Backspace => 37 | .Tab => 38

/-- Inverse of `keyIdx`. -/
def keyOfIdx : Nat → Option Key
  | 0 => some .KeyA | 1 => some .KeyB | 2 => some .KeyC | 3 => some .KeyD
  | 4 => some .KeyE | 5 => some .KeyF | 6 => some .KeyG | 7 => some .KeyH
  | 8 => some .KeyI | 9 => some .KeyJ | 10 => some .KeyK | 11 => some .KeyL
  | 12 => some .KeyM | 13 => some .KeyN | 14 => some .KeyO | 15 => some .KeyP
  | 16 => some .KeyQ | 17 => some .KeyR | 18 => some .KeyS | 19 => some .KeyT
  | 20 => some .KeyU | 21 => some .KeyV | 22 => some .KeyW | 23 => some .KeyX
  | 24 => some .KeyY | 25 => some .KeyZ
  | 26 => some .ControlLeft | 27 => some .ControlRight
  | 28 => some .ShiftLeft | 29 => some .ShiftRight
  | 30 => some .AltLeft | 31 => some .AltRight
  | 32 => some .MetaLeft | 33 => some .MetaRight
  | 34 => some .Escape | 35 => some .Return | 36 => some .Space
  | 37 => some .Backspace | 38 => some .Tab
  | _ => none

theorem keyOfIdx_keyIdx (k : Key) : keyOfIdx (keyIdx k) = some k := by
  cases k <;> rfl

/-- `rmp_serde::to_vec` on an `Event`.  Modelled from the spec (the `rmp`
crates are not part of the repository sources): a data-carrying variant is a
single-entry map from the variant index to the array of field values; a unit
variant is the bare variant index. -/
def encodeEvent : Event → List Nat
  | .MouseMove x y => 129 :: 0 :: 146 :: (writeSint x ++ writeSint y)
  | .MouseClick b => [129, 1, 145, btnIdx b]
  | .MouseButtonPress b => [129, 2, 145, btnIdx b]
  | .MouseButtonRelease b => [129, 3, 145, btnIdx b]
  | .MouseScroll dx dy => 129 :: 4 :: 146 :: (writeSint dx ++ writeSint dy)
  | .KeyPress k => [129, 5, 145, keyIdx k]
  | .KeyRelease k => [129, 6, 145, keyIdx k]
  | .FocusGrant t x y => 129 :: 7 :: 147 :: (writeStr t ++ writeSint x ++ writeSint y)
  | .FocusRelease => [8]
  | .Heartbeat => [9]

/-- MessagePack map header. -/
def readMapLen : List Nat → Option (Nat × List Nat)
  | [] => none
  | b :: r =>
    if 128 ≤ b ∧ b < 144 then some (b - 128, r)
    else if b = 222 then
      if 2 ≤ r.length then some (beVal (r.take 2), r.drop 2) else none
    else if b = 223 then
      if 4 ≤ r.length then some (beVal (r.take 4), r.drop 4) else none
    else none

/-- MessagePack array header. -/
def readArrayLen : List Nat → Option (Nat × List Nat)
  | [] => none
  | b :: r =>
    if 144 ≤ b ∧ b < 160 then some (b - 144, r)
    else if b = 220 then
      if 2 ≤ r.length then some (beVal (r.take 2), r.drop 2) else none
    else if b = 221 then
      if 4 ≤ r.length then some (beVal (r.take 4), r.drop 4) else none
    else none

/-- Expect an array header of exactly `n` elements. -/
def expectArray (n : Nat) (l : List Nat) : Option (List Nat) :=
  (readArrayLen l).bind fun mr => if mr.1 = n then some mr.2 else none

/-- Deserialize into `i32`: any integer representation, range-checked. -/
def readI32 (l : List Nat) : Option (Int × List Nat) :=
  (readInt l).bind fun vr =>
    if -2147483648 ≤ vr.1 ∧ vr.1 < 2147483648 then some vr else none

/-- Deserialize into `i64`: any integer representation, range-checked. -/
def readI64 (l : List Nat) : Option (Int × List Nat) :=
  (readInt l).bind fun vr =>
    if -9223372036854775808 ≤ vr.1 ∧ vr.1 < 9223372036854775808 then some vr else none

/-- Deserialize a `MouseButton` (unit variant: bare index). -/
def decodeButton (l : List Nat) : Option (MouseButton × List Nat) :=
  (readInt l).bind fun vr =>
    if vr.1 = 0 then some (.Left, vr.2)
    else if vr.1 = 1 then some (.Right, vr.2)
    else if vr.1 = 2 then some (.Middle, vr.2)
    else none

/-- Deserialize a `Key` (unit variant: bare index). -/
def decodeKey (l : List Nat) : Option (Key × List Nat) :=
  (readInt l).bind fun vr =>
    if 0 ≤ vr.1 then (keyOfIdx vr.1.toNat).map (fun k => (k, vr.2)) else none

/-- Deserialize the payload of the variant with serde index `idx`. -/
def parseVariant (idx : Int) (r : List Nat) : Option (Event × List Nat) :=
  if idx = 0 then
    (expectArray 2 r).bind fun r2 =>
    (readI32 r2).bind fun xr =>
    (readI32 xr.2).bind fun yr =>
    some (.MouseMove xr.1 yr.1, yr.2)
  else if idx = 1 then
    (expectArray 1 r).bind fun r2 =>
    (decodeButton r2).bind fun br =>
    some (.MouseClick br.1, br.2)
  else if idx = 2 then
    (expectArray 1 r).bind fun r2 =>
    (decodeButton r2).bind fun br =>
    some (.MouseButtonPress br.1, br.2)
  else if idx = 3 then
    (expectArray 1 r).bind fun r2 =>
    (decodeButton r2).bind fun br =>
    some (.MouseButtonRelease br.1, br.2)
  else if idx = 4 then
    (expectArray 2 r).bind fun r2 =>
    (readI64 r2).bind fun xr =>
    (readI64 xr.2).bind fun yr =>
    some (.MouseScroll xr.1 yr.1, yr.2)
  else if idx = 5 then
    (expectArray 1 r).bind fun r2 =>
    (decodeKey r2).bind fun kr =>
    some (.KeyPress kr.1, kr.2)
  else if idx = 6 then
    (expectArray 1 r).bind fun r2 =>
    (decodeKey r2).bind fun kr =>
    some (.KeyRelease kr.1, kr.2)
  else if idx = 7 then
    (expectArray 3 r).bind fun r2 =>
    (readStr r2).bind fun tr =>
    (readI32 tr.2).bind fun xr =>
    (readI32 xr.2).bind fun yr =>
    some (.FocusGrant tr.1 xr.1 yr.1, yr.2)
  else none

/-- `rmp_serde::from_slice::<Event>` on a payload: either a single-entry map
(data variant) or a bare integer (unit variant). -/
def parseEvent (l : List Nat) : Option (Event × List Nat) :=
  (readMapLen l).elim
    ((readInt l).bind fun ir =>
      if ir.1 = 8 then some (.FocusRelease, ir.2)
      else if ir.1 = 9 then some (.Heartbeat, ir.2)
      else none)
    (fun nr =>
      if nr.1 = 1 then (readInt nr.2).bind fun ir => parseVariant ir.1 ir.2
      else none)

/-- `rmp_serde::from_slice::<Event>`: decode an event from a frame payload. -/
def decodeEvent (l : List Nat) : Option Event := (parseEvent l).map (fun er => er.1)

/-- The `i32` value range. -/
def I32Range (v : Int) : Prop := -2147483648 ≤ v ∧ v < 2147483648

/-- The `i64` value range. -/
def I64Range (v : Int) : Prop := -9223372036854775808 ≤ v ∧ v < 9223372036854775808

/-- Range invariants the Rust `Event` type guarantees by construction:
`i32`/`i64` fields are in range, and the target string is shorter than the
4-byte length headers allow. -/
def EventWF : Event → Prop
  | .MouseMove x y => I32Range x ∧ I32Range y
  | .MouseScroll dx dy => I64Range dx ∧ I64Range dy
  | .FocusGrant t x y => I32Range x ∧ I32Range y ∧ (utf8Bytes t).length < 4294967232
  | _ => True

instance (e : Event) : Decidable (EventWF e) := by
  cases e <;> simp only [EventWF, I32Range, I64Range] <;> infer_instance

theorem readInt_fixpos (b : Nat) (hb : b < 128) (r : List Nat) :
    readInt (b :: r) = some ((b : Int), r) := by
  simp [readInt, hb]

theorem readI32_writeSint (v : Int) (r : List Nat)
    (h1 : -2147483648 ≤ v) (h2 : v < 2147483648) :
    readI32 (writeSint v ++ r) = some (v, r) := by
  unfold readI32
  rw [readInt_writeSint v r (by omega) (by omega)]
  simp [h1, h2]

theorem readI64_writeSint (v : Int) (r : List Nat)
    (h1 : -9223372036854775808 ≤ v) (h2 : v < 9223372036854775808) :
    readI64 (writeSint v ++ r) = some (v, r) := by
  unfold readI64
  rw [readInt_writeSint v r (by omega) (by omega)]
  simp [h1, h2]

theorem decodeButton_btnIdx (b : MouseButton) (r : List Nat) :
    decodeButton (btnIdx b :: r) = some (b, r) := by
  cases b <;> simp [decodeButton, btnIdx, readInt]

set_option maxHeartbeats 12000000 in
theorem decodeKey_keyIdx (k : Key) (r : List Nat) :
    decodeKey (keyIdx k :: r) = some (k, r) := by
  cases k <;> simp [decodeKey, keyIdx, readInt, keyOfIdx]

/-- Round trip of the event codec: `from_slice` recovers what `to_vec`
produced (with any trailing bytes untouched). -/
theorem parseEvent_encodeEvent (e : Event) (h : EventWF e) (rest : List Nat) :
    parseEvent (encodeEvent e ++ rest) = some (e, rest) := by
  cases e with
  | MouseMove x y =>
    have h1 := readI32_writeSint x (writeSint y ++ rest) h.1.1 h.1.2
    have h2 := readI32_writeSint y rest h.2.1 h.2.2
    simp [encodeEvent, parseEvent, readMapLen, readInt, parseVariant, expectArray,
      readArrayLen, h1, h2]
  | MouseClick b =>
    have hb := decodeButton_btnIdx b rest
    simp [encodeEvent, parseEvent, readMapLen, readInt, parseVariant, expectArray,
      readArrayLen, hb]
  | MouseButtonPress b =>
    have hb := decodeButton_btnIdx b rest
    simp [encodeEvent, parseEvent, readMapLen, readInt, parseVariant, expectArray,
      readArrayLen, hb]
  | MouseButtonRelease b =>
    have hb := decodeButton_btnIdx b rest
    simp [encodeEvent, parseEvent, readMapLen, readInt, parseVariant, expectArray,
      readArrayLen, hb]
  | MouseScroll dx dy =>
    have h1 := readI64_writeSint dx (writeSint dy ++ rest) h.1.1 h.1.2
    have h2 := readI64_writeSint dy rest h.2.1 h.2.2
    simp [encodeEvent, parseEvent, readMapLen, readInt, parseVariant, expectArray,
      readArrayLen, h1, h2]
  | KeyPress k =>
    have hk := decodeKey_keyIdx k rest
    simp [encodeEvent, parseEvent, readMapLen, readInt, parseVariant, expectArray,
      readArrayLen, hk]
  | KeyRelease k =>
    have hk := decodeKey_keyIdx k rest
    simp [encodeEvent, parseEvent, readMapLen, readInt, parseVariant, expectArray,
      readArrayLen, hk]
  | FocusGrant t x y =>
    have ht := readStr_writeStr t (writeSint x ++ (writeSint y ++ rest))
      (lt_trans h.2.2 (by norm_num))
    have h1 := readI32_writeSint x (writeSint y ++ rest) h.1.1 h.1.2
    have h2 := readI32_writeSint y rest h.2.1.1 h.2.1.2
    simp [encodeEvent, parseEvent, readMapLen, readInt, parseVariant, expectArray,
      readArrayLen, ht, h1, h2]
  | FocusRelease =>
    simp [encodeEvent, parseEvent, readMapLen, readInt]
  | Heartbeat =>
    simp [encodeEvent, parseEvent, readMapLen, readInt]

theorem decodeEvent_encodeEvent (e : Event) (h : EventWF e) :
    decodeEvent (encodeEvent e) = some e := by
  have hp := parseEvent_encodeEvent e h []
  rw [List.append_nil] at hp
  simp [decodeEvent, hp]

/-! ## Framing and the connection tasks (`src/core/network.rs`) -/

/-- Length-prefixed frame: `(data.len() as u32).to_be_bytes()` then the
payload, as written by the send paths of `handle_client` and
`handle_connection`. -/
def mkFrame (payload : List Nat) : List Nat :=
  beBytes 4 (payload.length % 4294967296) ++ payload

/-- The zero-length heartbeat frame (`write_all(&[0u8; 4])`). -/
def heartbeatFrame : List Nat := [0, 0, 0, 0]

/-- One receiver iteration: read the 4-byte big-endian length, then the
payload.  `none` means the stream ended mid-frame (the task breaks);
`some (none, rest)` is a zero-length heartbeat frame; `some (some p, rest)`
is a payload frame. -/
def readFrame (s : List Nat) : Option (Option (List Nat) × List Nat) :=
  if 4 ≤ s.length then
    if beVal (s.take 4) = 0 then some (none, s.drop 4)
    else if beVal (s.take 4) ≤ (s.drop 4).length then
      some (some ((s.drop 4).take (beVal (s.take 4))), (s.drop 4).drop (beVal (s.take 4)))
    else none
  else none

/-- The receive loop shared by `handle_client` and `handle_connection`:
read a 4-byte length; a zero length is a heartbeat and is skipped; otherwise
read that many payload bytes and deserialize; a successfully decoded event
is forwarded, a deserialization failure is logged and the loop continues;
the loop ends when the stream does.  There is no maximum-length check.
Returns the list of forwarded events. -/
def recvFrames (s : List Nat) : List Event :=
  if h4 : 4 ≤ s.length then
    if beVal (s.take 4) = 0 then recvFrames (s.drop 4)
    else if hlen : beVal (s.take 4) ≤ (s.drop 4).length then
      match decodeEvent ((s.drop 4).take (beVal (s.take 4))) with
      | some e => e :: recvFrames ((s.drop 4).drop (beVal (s.take 4)))
      | none => recvFrames ((s.drop 4).drop (beVal (s.take 4)))
    else []
  else []
termination_by s.length
decreasing_by
  all_goals (simp [List.length_drop]; omega)

/-- The `handle_client` send task (host → agent): serialize and frame each
event drained from the outbound channel.  It has no timer branch: it never
writes a heartbeat frame. -/
def hostSendFrames (events : List Event) : List (List Nat) :=
  events.map (fun e => mkFrame (encodeEvent e))

/-- Input alphabet of the `handle_connection` send task: a 5-second
heartbeat-interval tick, or an event drained from the agent channel. -/
inductive AgentSendInput
  | tick
  | evt (e : Event)

/-- The `handle_connection` send task (agent → host): a tick writes the four
zero bytes, an event writes a framed serialized event. -/
def agentSendFrames (inputs : List AgentSendInput) : List (List Nat) :=
  inputs.map fun i =>
    match i with
    | .tick => heartbeatFrame
    | .evt e => mkFrame (encodeEvent e)

/-- Result of one header read in the `handle_client` receive loop, whose
`read_exact` is wrapped in `tokio::time::timeout(Duration::from_secs(15))`:
bytes, end of stream, or a 15-second deadline expiry. -/
inductive HostHeaderRead
  | header (len : Nat)
  | eof
  | timeout

/-- Whether the `handle_client` receive loop keeps running after a header
read: a read error or a 15-second timeout breaks the loop (ending the
connection); only received bytes keep it alive. -/
def hostRecvContinues : HostHeaderRead → Bool
  | .header _ => true
  | .eof => false
  | .timeout => false

theorem encodeEvent_ne_nil (e : Event) : encodeEvent e ≠ [] := by
  cases e <;> simp [encodeEvent]

theorem writeSint_length_le (v : Int) : (writeSint v).length ≤ 9 := by
  unfold writeSint
  split
  · simp
  · split
    · simp
    · split
      · simp
      · split
        · simp
        · split
          · simp
          · split
            · simp
            · split
              · simp
              · split
                · simp
                · split <;> simp

theorem writeStr_length_le (s : String) :
    (writeStr s).length ≤ 5 + (utf8Bytes s).length := by
  unfold writeStr
  split
  · simp; omega
  · split
    · simp; omega
    · split <;> (simp [List.length_append]; omega)

theorem encodeEvent_length_lt (e : Event) (h : EventWF e) :
    (encodeEvent e).length < 4294967296 := by
  cases e with
  | MouseMove x y =>
    have hx := writeSint_length_le x
    have hy := writeSint_length_le y
    simp [encodeEvent, List.length_append]
    omega
  | MouseScroll dx dy =>
    have hx := writeSint_length_le dx
    have hy := writeSint_length_le dy
    simp [encodeEvent, List.length_append]
    omega
  | FocusGrant t x y =>
    have ht := writeStr_length_le t
    have hx := writeSint_length_le x
    have hy := writeSint_length_le y
    have hlen : (utf8Bytes t).length < 4294967232 := h.2.2
    simp [encodeEvent, List.length_append]
    omega
  | MouseClick b => simp [encodeEvent]
  | MouseButtonPress b => simp [encodeEvent]
  | MouseButtonRelease b => simp [encodeEvent]
  | KeyPress k => simp [encodeEvent]
  | KeyRelease k => simp [encodeEvent]
  | FocusRelease => simp [encodeEvent]
  | Heartbeat => simp [encodeEvent]

theorem readFrame_mkFrame (payload rest : List Nat) (hne : payload ≠ [])
    (hlen : payload.length < 4294967296) :
    readFrame (mkFrame payload ++ rest) = some (some payload, rest) := by
  have hmod : payload.length % 4294967296 = payload.length := Nat.mod_eq_of_lt hlen
  have hp : 0 < payload.length := List.length_pos.mpr hne
  unfold readFrame mkFrame
  rw [hmod, List.append_assoc, take_beBytes_append, drop_beBytes_append]
  rw [beVal_beBytes 4 _ (by omega : payload.length < 256 ^ 4)]
  rw [if_pos (by simp [List.length_append, beBytes_length])]
  rw [if_neg (by omega), if_pos (by simp [List.length_append])]
  rw [take_len_append, drop_len_append]

theorem readFrame_heartbeat (rest : List Nat) :
    readFrame (heartbeatFrame ++ rest) = some (none, rest) := by
  unfold readFrame heartbeatFrame
  rw [if_pos (by simp [List.length_append])]
  norm_num [beVal]

theorem recvFrames_heartbeat (rest : List Nat) :
    recvFrames (heartbeatFrame ++ rest) = recvFrames rest := by
  rw [recvFrames]
  have h4 : 4 ≤ (heartbeatFrame ++ rest).length := by simp [heartbeatFrame]
  rw [dif_pos h4]
  have htake : (heartbeatFrame ++ rest).take 4 = heartbeatFrame :=
    take_len_append heartbeatFrame rest
  have hdrop : (heartbeatFrame ++ rest).drop 4 = rest :=
    drop_len_append heartbeatFrame rest
  rw [htake, hdrop]
  norm_num [beVal, heartbeatFrame]

theorem recvFrames_frame (payload rest : List Nat) (hne : payload ≠ [])
    (hlen : payload.length < 4294967296) :
    recvFrames (mkFrame payload ++ rest) =
      (match decodeEvent payload with
       | some e => e :: recvFrames rest
       | none => recvFrames rest) := by
  have hmod : payload.length % 4294967296 = payload.length := Nat.mod_eq_of_lt hlen
  have hp : 0 < payload.length := List.length_pos.mpr hne
  rw [recvFrames]
  have h4 : 4 ≤ (mkFrame payload ++ rest).length := by
    simp [mkFrame, List.length_append, beBytes_length]
  rw [dif_pos h4]
  have htake : (mkFrame payload ++ rest).take 4 = beBytes 4 (payload.length % 4294967296) := by
    unfold mkFrame
    rw [List.append_assoc, take_beBytes_append]
  have hdrop : (mkFrame payload ++ rest).drop 4 = payload ++ rest := by
    unfold mkFrame
    rw [List.append_assoc, drop_beBytes_append]
  rw [htake, hdrop, hmod, beVal_beBytes 4 _ (by omega : payload.length < 256 ^ 4)]
  rw [if_neg (by omega)]
  rw [dif_pos (by simp [List.length_append])]
  rw [take_len_append, drop_len_append]

/-! ## FingerprintStore (`src/core/fingerprint.rs`) -/

/-- A pinned fingerprint.  Timestamps are carried as opaque strings; the
ambient clock value is passed explicitly where `chrono::Utc::now()` is
called.  Source equality (`PartialEq`) is on (name, hash) only. -/
structure Fingerprint where
  machine_name : String
  hash : String
  first_seen : Option String
  last_verified : Option String
deriving DecidableEq, Repr

/-- `Fingerprint::new` (both timestamps set to the current time). -/
def Fingerprint.new (now machine_name hash : String) : Fingerprint :=
  ⟨machine_name, hash, some now, some now⟩

/-- `Fingerprint::verify`: hash comparison. -/
def Fingerprint.verify (fp : Fingerprint) (cert_hash : String) : Bool :=
  fp.hash == cert_hash

/-- The in-memory `HashMap<String, Fingerprint>` as an association list;
an inserted key shadows any previous binding. -/
abbrev FPMap := List (String × Fingerprint)

/-- `HashMap::get`. -/
def fpGet (m : FPMap) (k : String) : Option Fingerprint :=
  (m.find? (fun p => p.1 == k)).map (fun p => p.2)

/-- `HashMap::insert` (replacing any previous binding). -/
def fpInsert (m : FPMap) (k : String) (v : Fingerprint) : FPMap :=
  (k, v) :: m.filter (fun p => ¬(p.1 == k))

/-- `FingerprintVerification` (`src/core/fingerprint.rs`). -/
inductive FingerprintVerification
  | Verified
  | FirstConnection
  | Mismatch (stored received : String)
deriving DecidableEq, Repr

/-- `FingerprintStore::save`: insert into the in-memory map, then call
`persist`.  `persistOk` models whether the `fs::write` inside `persist`
succeeds.  Returns the new map, the list of successful disk writes (each a
snapshot of the serialized map), and the `Result`.  On a failed write the
insertion is not rolled back. -/
def fpSave (persistOk : Bool) (m : FPMap) (k : String) (v : Fingerprint) :
    FPMap × List FPMap × Except Unit Unit :=
  if persistOk then (fpInsert m k v, [fpInsert m k v], .ok ())
  else (fpInsert m k v, [], .error ())

/-- `FingerprintStore::verify_or_save`: the TOFU decision.  Returns the
resulting map, the successful disk writes, and the `Result`. -/
def verify_or_save (persistOk : Bool) (now : String) (m : FPMap)
    (machine_name cert_hash : String) :
    FPMap × List FPMap × Except Unit FingerprintVerification :=
  match fpGet m machine_name with
  | some stored_fp =>
    if stored_fp.verify cert_hash then (m, [], .ok .Verified)
    else (m, [], .ok (.Mismatch stored_fp.hash cert_hash))
  | none =>
    match fpSave persistOk m machine_name (Fingerprint.new now machine_name cert_hash) with
    | (m2, w, .ok _) => (m2, w, .ok .FirstConnection)
    | (m2, w, .error _) => (m2, w, .error ())

/-- The match on `verify_or_save`'s result in `Network::connect_to_host`:
`Verified` and `FirstConnection` proceed, `Mismatch` aborts the connection
with `anyhow::bail!`. -/
def connectVerdict : FingerprintVerification → Except String Unit
  | .Verified => .ok ()
  | .FirstConnection => .ok ()
  | .Mismatch _ _ => .error "Fingerprint mismatch - possible MITM attack"

/-! ## PSK handshake (`perform_psk_handshake`, server side) -/

/-- `PSK_MAGIC`: the bytes of `"MULTISHIVA_PSK_V1"`. -/
def PSK_MAGIC : List Nat := "MULTISHIVA_PSK_V1".data.map Char.toNat

/-- The `"OK"` acknowledgment bytes. -/
def OK_BYTES : List Nat := [79, 75]

/-- One lowercase hex digit byte. -/
def hexDigit (n : Nat) : Nat := if n < 10 then 48 + n else 87 + n

/-- `hex::encode`: two lowercase hex digits per byte. -/
def hexEncode (l : List Nat) : List Nat :=
  l.flatMap (fun b => [hexDigit (b / 16), hexDigit (b % 16)])

/-- `compute_psk_hash` = `hex::encode(Sha256::digest(psk))`, parameterized
by the digest function (the `sha2` crate is outside the repository; the
handshake logic depends only on its output bytes). -/
def compute_psk_hash (sha256 : List Nat → List Nat) (psk : List Nat) : List Nat :=
  hexEncode (sha256 psk)

/-- `data.splitn(2, |&b| b == 0)`: the part before the first zero byte and
everything after it; `none` when there is no zero byte (in which case the
Rust code sees a single part and bails). -/
def splitFirstZero : List Nat → Option (List Nat × List Nat)
  | [] => none
  | b :: r =>
    if b = 0 then some ([], r)
    else (splitFirstZero r).map (fun p => (b :: p.1, p.2))

/-- The `anyhow::bail!` sites of the server side of
`perform_psk_handshake`. -/
inductive HandshakeError
  | InvalidHandshake
  | InvalidMagic
  | InvalidFormat
  | InvalidMachineName
  | InvalidPskHash
  | PskMismatch
deriving DecidableEq, Repr

/-- Server side of `perform_psk_handshake` applied to one received buffer
`msg`: returns the bytes written back (the `"OK"` acknowledgment, or
nothing) and either the machine-name bytes or the bail reason. -/
def perform_psk_handshake_server (psk_hash : List Nat) (msg : List Nat) :
    List Nat × Except HandshakeError (List Nat) :=
  if msg.length < PSK_MAGIC.length then ([], .error .InvalidHandshake)
  else if msg.take PSK_MAGIC.length ≠ PSK_MAGIC then ([], .error .InvalidMagic)
  else
    match splitFirstZero (msg.drop PSK_MAGIC.length) with
    | none => ([], .error .InvalidFormat)
    | some (namePart, hashPart) =>
      if ¬ utf8ValidB namePart then ([], .error .InvalidMachineName)
      else if ¬ utf8ValidB hashPart then ([], .error .InvalidPskHash)
      else if hashPart ≠ psk_hash then ([], .error .PskMismatch)
      else (OK_BYTES, .ok namePart)

/-! ## Topology (`src/core/topology.rs`) -/

/-- Screen edges, in source declaration order. -/
inductive Edge
  | Right
  | Left
  | Top
  | Bottom
deriving DecidableEq, Repr

/-- `Topology`: machine positions and, per machine, the edge → neighbor
map, both as association lists. -/
structure Topology where
  machines : List (String × (Int × Int))
  edges : List (String × List (Edge × String))
deriving DecidableEq, Repr

/-- `self.edges.get(machine)`. -/
def edgesGet (t : Topology) (machine : String) : Option (List (Edge × String)) :=
  (t.edges.find? (fun p => p.1 == machine)).map (fun p => p.2)

/-- `machine_edges.contains_key(&edge)`. -/
def containsEdge (m : List (Edge × String)) (e : Edge) : Bool :=
  m.any (fun p => p.1 == e)

/-- `Topology::detect_edge`: check Right, Left, Top, Bottom in order and
return the first configured edge whose proximity test passes.  The Bottom
test uses the hard-coded `screen_height = 1080` of the source. -/
def Topology.detect_edge (t : Topology) (machine : String) (x y : Int)
    (screen_width threshold : Nat) : Option Edge :=
  match edgesGet t machine with
  | none => none
  | some machine_edges =>
    if containsEdge machine_edges .Right ∧ x ≥ (screen_width : Int) - (threshold : Int) then
      some .Right
    else if containsEdge machine_edges .Left ∧ x < (threshold : Int) then some .Left
    else if containsEdge machine_edges .Top ∧ y < (threshold : Int) then some .Top
    else if containsEdge machine_edges .Bottom ∧ y ≥ 1080 - (threshold : Int) then some .Bottom
    else none

/-- Modelled from the spec: `detect_edge` as claim C6 and §4.2 describe it,
with the Bottom test computed from the actual screen height. -/
def detectEdgeClaim (t : Topology) (machine : String) (x y : Int)
    (screen_width screen_height threshold : Nat) : Option Edge :=
  match edgesGet t machine with
  | none => none
  | some machine_edges =>
    if containsEdge machine_edges .Right ∧ x ≥ (screen_width : Int) - (threshold : Int) then
      some .Right
    else if containsEdge machine_edges .Left ∧ x < (threshold : Int) then some .Left
    else if containsEdge machine_edges .Top ∧ y < (threshold : Int) then some .Top
    else if containsEdge machine_edges .Bottom ∧
        y ≥ (screen_height : Int) - (threshold : Int) then some .Bottom
    else none

/-! ## Host event loop (`run_host_mode` in `src/main.rs`) -/

/-- The configuration slice the host event loop reads. -/
structure HostCfg where
  edges : List (String × String)
  screenW : Int
  screenH : Int
  threshold : Int
deriving DecidableEq, Repr

/-- Host loop state: the focus target (`None` = local), the numbers of
`grab_devices` / `ungrab_devices` calls, and the events handed to
`network.send_event`, in order. -/
structure HostState where
  focus_target : Option String
  grabs : Nat
  ungrabs : Nat
  sent : List Event
deriving DecidableEq, Repr

/-- The state at loop entry. -/
def initialHostState : HostState := ⟨none, 0, 0, []⟩

/-- `config.edges.get(edge_name)`. -/
def assocGetStr (l : List (String × String)) (k : String) : Option String :=
  (l.find? (fun p => p.1 == k)).map (fun p => p.2)

/-- One iteration of the host event loop on an event received from the
merged capture/agent channel: `FocusRelease` returns focus to local and
ungrabs; with remote focus every event is forwarded; otherwise a
`MouseMove` near a configured edge sends a `FocusGrant` with the
opposite-edge entry point, sets the focus target, and grabs devices. -/
def hostStep (cfg : HostCfg) (st : HostState) (e : Event) : HostState :=
  if e = .FocusRelease then
    { st with focus_target := none, ungrabs := st.ungrabs + 1 }
  else
    match st.focus_target with
    | some _ => { st with sent := st.sent ++ [e] }
    | none =>
      match e with
      | .MouseMove x y =>
        let at_left := x < cfg.threshold
        let at_right := x > cfg.screenW - cfg.threshold
        let at_top := y < cfg.threshold
        let at_bottom := y > cfg.screenH - cfg.threshold
        if at_left ∨ at_right ∨ at_top ∨ at_bottom then
          let edge : Option String :=
            if at_left then some "left"
            else if at_right then some "right"
            else if at_top then some "top"
            else if at_bottom then some "bottom"
            else none
          match edge with
          | none => st
          | some edge_name =>
            match assocGetStr cfg.edges edge_name with
            | none => st
            | some neighbor =>
              let entry : Int × Int :=
                if edge_name = "left" then (cfg.screenW - cfg.threshold - 1, y)
                else if edge_name = "right" then (cfg.threshold, y)
                else if edge_name = "top" then (x, cfg.screenH - cfg.threshold - 1)
                else if edge_name = "bottom" then (x, cfg.threshold)
                else (x, y)
              { st with
                sent := st.sent ++ [.FocusGrant neighbor entry.1 entry.2],
                focus_target := some neighbor,
                grabs := st.grabs + 1 }
        else st
      | _ => st

/-- The host event loop folded over its incoming events. -/
def runHost (cfg : HostCfg) (st : HostState) (events : List Event) : HostState :=
  events.foldl (hostStep cfg) st

/-- The S1 configuration: 1920×1080 host screen, right edge mapped to
`"agentA"`, threshold 10. -/
def hostCfgS1 : HostCfg := ⟨[("right", "agentA")], 1920, 1080, 10⟩

/-! ## Agent inbound loop (`run_agent_mode` in `src/main.rs`) -/

/-- Agent loop state: the focus flag, tracked positions, and the events
passed to `input_handler.inject_event`, in order. -/
structure AgentState where
  has_focus : Bool
  current_position : Option (Int × Int)
  last_host_position : Option (Int × Int)
  injected : List Event
deriving DecidableEq, Repr

/-- The state at loop entry. -/
def initialAgentState : AgentState := ⟨false, none, none, []⟩

/-- One iteration of the agent loop on an event received from the host:
`FocusGrant` stores the sent position verbatim and injects a `MouseMove`
there; a `MouseMove` while focused applies the host delta to the current
position verbatim and injects it; `FocusRelease` and `Heartbeat` are
skipped; all remaining events are injected verbatim.  No clamping is
applied anywhere. -/
def agentStep (st : AgentState) (e : Event) : AgentState :=
  match e with
  | .FocusGrant _ x y =>
    { st with has_focus := true,
              current_position := some (x, y),
              last_host_position := some (x, y),
              injected := st.injected ++ [.MouseMove x y] }
  | .MouseMove hx hy =>
    if st.has_focus then
      match st.current_position, st.last_host_position with
      | some (cx, cy), some (lx, ly) =>
        { st with current_position := some (cx + (hx - lx), cy + (hy - ly)),
                  last_host_position := some (hx, hy),
                  injected := st.injected ++ [.MouseMove (cx + (hx - lx)) (cy + (hy - ly))] }
      | _, _ => st
    else st
  | .FocusRelease => st
  | .Heartbeat => st
  | other => { st with injected := st.injected ++ [other] }

/-- The agent inbound loop folded over the events received from the host. -/
def runAgent (st : AgentState) (events : List Event) : AgentState :=
  events.foldl agentStep st

/-- Modelled from the spec: `clamp_to_screen` — clamp a position to the
agent's on-screen rectangle (the agent loop in the source contains no such
function). -/
def clampToScreenSpec (w h : Nat) (p : Int × Int) : Int × Int :=
  (max 0 (min p.1 ((w : Int) - 1)), max 0 (min p.2 ((h : Int) - 1)))

/-- Whether a position lies in the `w × h` on-screen rectangle. -/
def inScreenRect (w h : Nat) (p : Int × Int) : Prop :=
  0 ≤ p.1 ∧ p.1 < (w : Int) ∧ 0 ≤ p.2 ∧ p.2 < (h : Int)

instance (w h : Nat) (p : Int × Int) : Decidable (inScreenRect w h p) := by
  unfold inScreenRect
  infer_instance

/-! ## Helper lemmas for the handshake -/

theorem utf8DecodeListFuel_ascii :
    ∀ (l : List Nat) (fuel : Nat), (∀ b ∈ l, b < 128) → l.length ≤ fuel →
    utf8DecodeListFuel fuel l = some l := by
  intro l
  induction l with
  | nil => intro fuel _ _; cases fuel <;> simp [utf8DecodeListFuel]
  | cons b r ih =>
    intro fuel hb hl
    obtain ⟨f, rfl⟩ : ∃ f, fuel = f + 1 := by
      cases fuel with
      | zero => simp at hl
      | succ f => exact ⟨f, rfl⟩
    have hb0 : b < 128 := hb b (by simp)
    show (match utf8DecodeCp (b :: r) with
      | none => none
      | some (c, r2) => (utf8DecodeListFuel f r2).map (fun cs => c :: cs)) = some (b :: r)
    rw [show utf8DecodeCp (b :: r) = some (b, r) by simp [utf8DecodeCp, hb0]]
    have hr : utf8DecodeListFuel f r = some r :=
      ih f (fun x hx => hb x (by simp [hx])) (by simp at hl; omega)
    simp [hr]

theorem utf8ValidB_ascii (l : List Nat) (h : ∀ b ∈ l, b < 128) :
    utf8ValidB l = true := by
  unfold utf8ValidB utf8DecodeList
  rw [utf8DecodeListFuel_ascii l l.length h le_rfl]
  rfl

theorem hexEncode_lt_128 (l : List Nat) (hl : ∀ b ∈ l, b < 256) :
    ∀ b ∈ hexEncode l, b < 128 := by
  intro b hb
  rw [hexEncode, List.mem_flatMap] at hb
  obtain ⟨a, ha, hmem⟩ := hb
  have h256 := hl a ha
  have hd : a / 16 < 16 := by omega
  have hm : a % 16 < 16 := by omega
  simp at hmem
  rcases hmem with rfl | rfl <;> (unfold hexDigit; split <;> omega)

/-! ## Claim C1 -/

/-- C1: for every fingerprint store, machine name and hash, if
`verify_or_save` returns Verified or FirstConnection then afterwards the
store holds a fingerprint for that machine whose hash equals the given one;
if it returns Mismatch the store is unchanged, nothing is persisted, and
`connect_to_host` aborts the connection with an error. -/
theorem C1_verify_or_save_tofu (persistOk : Bool) (now : String) (m : FPMap)
    (name h : String) :
    ((verify_or_save persistOk now m name h).2.2 = .ok .Verified ∨
     (verify_or_save persistOk now m name h).2.2 = .ok .FirstConnection →
      ∃ fp, fpGet (verify_or_save persistOk now m name h).1 name = some fp ∧
        fp.hash = h) ∧
    (∀ s r, (verify_or_save persistOk now m name h).2.2 = .ok (.Mismatch s r) →
      (verify_or_save persistOk now m name h).1 = m ∧
      (verify_or_save persistOk now m name h).2.1 = [] ∧
      connectVerdict (.Mismatch s r) =
        .error "Fingerprint mismatch - possible MITM attack") := by
  rcases hg : fpGet m name with _ | fp
  · cases persistOk with
    | false =>
      constructor
      · intro hres
        exfalso
        rcases hres with h1 | h1 <;> simp [verify_or_save, fpSave, hg] at h1
      · intro s r hres
        exfalso
        simp [verify_or_save, fpSave, hg] at hres
    | true =>
      have hfun : verify_or_save true now m name h =
          (fpInsert m name (Fingerprint.new now name h),
           [fpInsert m name (Fingerprint.new now name h)], .ok .FirstConnection) := by
        simp [verify_or_save, fpSave, hg]
      constructor
      · intro _
        refine ⟨Fingerprint.new now name h, ?_, rfl⟩
        rw [hfun]
        simp [fpGet, fpInsert]
      · intro s r hres
        exfalso
        rw [hfun] at hres
        simp at hres
  · by_cases hv : fp.verify h
    · constructor
      · intro _
        refine ⟨fp, ?_, ?_⟩
        · simp [verify_or_save, hg, hv]
        · simpa [Fingerprint.verify] using hv
      · intro s r hres
        exfalso
        simp [verify_or_save, hg, hv] at hres
    · constructor
      · intro hres
        exfalso
        rcases hres with h1 | h1 <;> simp [verify_or_save, hg, hv] at h1
      · intro s r _
        refine ⟨?_, ?_, rfl⟩ <;> simp [verify_or_save, hg, hv]

/-- C1 witness: a Verified lookup and a Mismatch at concrete inputs. -/
theorem C1_verify_or_save_tofu_witness :
    (∃ fp, fpGet (verify_or_save true "t1"
        [("peer", Fingerprint.new "t0" "peer" "hash0")] "peer" "hash0").1 "peer" =
        some fp ∧ fp.hash = "hash0") ∧
    ((verify_or_save true "t1" [("peer", Fingerprint.new "t0" "peer" "hash0")]
        "peer" "otherhash").1 = [("peer", Fingerprint.new "t0" "peer" "hash0")] ∧
     (verify_or_save true "t1" [("peer", Fingerprint.new "t0" "peer" "hash0")]
        "peer" "otherhash").2.1 = [] ∧
     connectVerdict (.Mismatch "hash0" "otherhash") =
        .error "Fingerprint mismatch - possible MITM attack") :=
  ⟨(C1_verify_or_save_tofu true "t1" [("peer", Fingerprint.new "t0" "peer" "hash0")]
      "peer" "hash0").1 (Or.inl (by decide)),
   (C1_verify_or_save_tofu true "t1" [("peer", Fingerprint.new "t0" "peer" "hash0")]
      "peer" "otherhash").2 "hash0" "otherhash" (by decide)⟩

/-! ## Claim C10 -/

/-- C10: when the disk write fails during the FirstConnection path,
`verify_or_save` returns an error but the in-memory map already holds the
new entry — the mutation is not rolled back (and nothing reached disk), so
memory and the persisted file diverge. -/
theorem C10_save_error_keeps_insertion (now : String) (m : FPMap) (name h : String)
    (hnone : fpGet m name = none) :
    (verify_or_save false now m name h).2.2 = .error () ∧
    (∃ fp, fpGet (verify_or_save false now m name h).1 name = some fp ∧ fp.hash = h) ∧
    (verify_or_save false now m name h).2.1 = [] ∧
    (verify_or_save false now m name h).1 ≠ m := by
  have hfun : verify_or_save false now m name h =
      (fpInsert m name (Fingerprint.new now name h), [], .error ()) := by
    simp [verify_or_save, fpSave, hnone]
  have hget : fpGet (fpInsert m name (Fingerprint.new now name h)) name =
      some (Fingerprint.new now name h) := by
    simp [fpGet, fpInsert]
  refine ⟨by rw [hfun], ⟨Fingerprint.new now name h, by rw [hfun]; exact hget, rfl⟩,
    by rw [hfun], ?_⟩
  rw [hfun]
  intro heq
  have heq2 : fpInsert m name (Fingerprint.new now name h) = m := heq
  rw [heq2, hnone] at hget
  exact Option.noConfusion hget

/-- C10 witness at a concrete empty store. -/
theorem C10_save_error_keeps_insertion_witness :
    (verify_or_save false "t" [] "peer" "hash9").2.2 = .error () ∧
    (∃ fp, fpGet (verify_or_save false "t" [] "peer" "hash9").1 "peer" = some fp ∧
      fp.hash = "hash9") ∧
    (verify_or_save false "t" [] "peer" "hash9").2.1 = [] ∧
    (verify_or_save false "t" [] "peer" "hash9").1 ≠ [] :=
  C10_save_error_keeps_insertion "t" [] "peer" "hash9" (by decide)

/-! ## Claim C2 -/

/-- C2 (amended): the responder accepts exactly when the magic matches, the
part after the first zero byte equals hex(SHA-256(local PSK)), and the
machine name is valid UTF-8 — the name may be empty, emptiness is not
checked; it replies "OK" exactly on acceptance and writes nothing before
closing otherwise. -/
theorem C2_handshake_accept_iff (sha256 : List Nat → List Nat) (psk msg : List Nat)
    (hsha : ∀ b ∈ sha256 psk, b < 256) :
    (∀ nm, (perform_psk_handshake_server (compute_psk_hash sha256 psk) msg).2 = .ok nm ↔
      (PSK_MAGIC.length ≤ msg.length ∧ msg.take PSK_MAGIC.length = PSK_MAGIC ∧
       splitFirstZero (msg.drop PSK_MAGIC.length) =
         some (nm, compute_psk_hash sha256 psk) ∧
       utf8ValidB nm = true)) ∧
    (∀ nm, (perform_psk_handshake_server (compute_psk_hash sha256 psk) msg).2 = .ok nm →
      (perform_psk_handshake_server (compute_psk_hash sha256 psk) msg).1 = OK_BYTES) ∧
    (∀ err, (perform_psk_handshake_server (compute_psk_hash sha256 psk) msg).2 = .error err →
      (perform_psk_handshake_server (compute_psk_hash sha256 psk) msg).1 = []) := by
  have hvalid : utf8ValidB (compute_psk_hash sha256 psk) = true :=
    utf8ValidB_ascii _ (hexEncode_lt_128 _ hsha)
  by_cases h1 : msg.length < PSK_MAGIC.length
  · have hfun : perform_psk_handshake_server (compute_psk_hash sha256 psk) msg =
        ([], .error .InvalidHandshake) := by
      simp [perform_psk_handshake_server, h1]
    rw [hfun]
    refine ⟨fun nm => ⟨fun hres => by simp at hres, fun hc => by omega⟩,
      fun nm hres => by simp at hres, fun err _ => rfl⟩
  · by_cases h2 : msg.take PSK_MAGIC.length = PSK_MAGIC
    · rcases h3 : splitFirstZero (msg.drop PSK_MAGIC.length) with _ | ⟨nmP, hsP⟩
      · have hfun : perform_psk_handshake_server (compute_psk_hash sha256 psk) msg =
            ([], .error .InvalidFormat) := by
          simp [perform_psk_handshake_server, h1, h2, h3]
        rw [hfun]
        refine ⟨fun nm => ⟨fun hres => by simp at hres, ?_⟩,
          fun nm hres => by simp at hres, fun err _ => rfl⟩
        rintro ⟨_, _, hsp, _⟩
        exact Option.noConfusion hsp
      · by_cases h5 : hsP = compute_psk_hash sha256 psk
        · subst h5
          by_cases h4 : utf8ValidB nmP
          · have hfun : perform_psk_handshake_server (compute_psk_hash sha256 psk) msg =
                (OK_BYTES, .ok nmP) := by
              simp [perform_psk_handshake_server, h1, h2, h3, h4, hvalid]
            rw [hfun]
            refine ⟨fun nm => ⟨?_, ?_⟩, fun nm _ => rfl, fun err hres => by simp at hres⟩
            · intro hres
              simp only [Except.ok.injEq] at hres
              subst hres
              exact ⟨by omega, h2, rfl, h4⟩
            · rintro ⟨_, _, hsp, _⟩
              have hnmeq : nmP = nm := by simpa using hsp
              rw [hnmeq]
          · have hfun : perform_psk_handshake_server (compute_psk_hash sha256 psk) msg =
                ([], .error .InvalidMachineName) := by
              simp [perform_psk_handshake_server, h1, h2, h3, h4]
            rw [hfun]
            refine ⟨fun nm => ⟨fun hres => by simp at hres, ?_⟩,
              fun nm hres => by simp at hres, fun err _ => rfl⟩
            rintro ⟨_, _, hsp, hnm⟩
            have hnmeq : nmP = nm := by simpa using hsp
            rw [hnmeq] at h4
            exact absurd hnm h4
        · by_cases h6 : utf8ValidB hsP
          · by_cases h4 : utf8ValidB nmP
            · have hfun : perform_psk_handshake_server (compute_psk_hash sha256 psk) msg =
                  ([], .error .PskMismatch) := by
                simp [perform_psk_handshake_server, h1, h2, h3, h4, h6, h5]
              rw [hfun]
              refine ⟨fun nm => ⟨fun hres => by simp at hres, ?_⟩,
                fun nm hres => by simp at hres, fun err _ => rfl⟩
              rintro ⟨_, _, hsp, _⟩
              have hpair : nmP = nm ∧ hsP = compute_psk_hash sha256 psk := by
                simpa using hsp
              exact absurd hpair.2 h5
            · have hfun : perform_psk_handshake_server (compute_psk_hash sha256 psk) msg =
                  ([], .error .InvalidMachineName) := by
                simp [perform_psk_handshake_server, h1, h2, h3, h4]
              rw [hfun]
              refine ⟨fun nm => ⟨fun hres => by simp at hres, ?_⟩,
                fun nm hres => by simp at hres, fun err _ => rfl⟩
              rintro ⟨_, _, hsp, hnm⟩
              have hpair : nmP = nm ∧ hsP = compute_psk_hash sha256 psk := by
                simpa using hsp
              rw [hpair.1] at h4
              exact absurd hnm h4
          · by_cases h4 : utf8ValidB nmP
            · have hfun : perform_psk_handshake_server (compute_psk_hash sha256 psk) msg =
                  ([], .error .InvalidPskHash) := by
                simp [perform_psk_handshake_server, h1, h2, h3, h4, h6]
              rw [hfun]
              refine ⟨fun nm => ⟨fun hres => by simp at hres, ?_⟩,
                fun nm hres => by simp at hres, fun err _ => rfl⟩
              rintro ⟨_, _, hsp, _⟩
              have hpair : nmP = nm ∧ hsP = compute_psk_hash sha256 psk := by
                simpa using hsp
              rw [hpair.2] at h6
              exact absurd hvalid h6
            · have hfun : perform_psk_handshake_server (compute_psk_hash sha256 psk) msg =
                  ([], .error .InvalidMachineName) := by
                simp [perform_psk_handshake_server, h1, h2, h3, h4]
              rw [hfun]
              refine ⟨fun nm => ⟨fun hres => by simp at hres, ?_⟩,
                fun nm hres => by simp at hres, fun err _ => rfl⟩
              rintro ⟨_, _, hsp, hnm⟩
              have hpair : nmP = nm ∧ hsP = compute_psk_hash sha256 psk := by
                simpa using hsp
              rw [hpair.1] at h4
              exact absurd hnm h4
    · have hfun : perform_psk_handshake_server (compute_psk_hash sha256 psk) msg =
          ([], .error .InvalidMagic) := by
        simp [perform_psk_handshake_server, h1, h2]
      rw [hfun]
      refine ⟨fun nm => ⟨fun hres => by simp at hres, ?_⟩,
        fun nm hres => by simp at hres, fun err _ => rfl⟩
      rintro ⟨_, hmag, _, _⟩
      exact absurd hmag h2

/-- C2 witness: a well-formed handshake message at concrete inputs is
accepted with the sent machine name. -/
theorem C2_handshake_accept_iff_witness :
    (perform_psk_handshake_server
        (compute_psk_hash (fun _ => List.replicate 32 171) [1, 2, 3])
        (PSK_MAGIC ++ [112, 99] ++
          0 :: compute_psk_hash (fun _ => List.replicate 32 171) [1, 2, 3])).2 =
      .ok [112, 99] :=
  ((C2_handshake_accept_iff (fun _ => List.replicate 32 171) [1, 2, 3]
      (PSK_MAGIC ++ [112, 99] ++
        0 :: compute_psk_hash (fun _ => List.replicate 32 171) [1, 2, 3])
      (by decide)).1 [112, 99]).mpr (by decide)

/-- C2 counterexample: a handshake message whose machine-name part is empty
is accepted and acknowledged with "OK" — the responder does not check
non-emptiness, contradicting the claim that it accepts exactly when the
machine name is valid UTF-8 and non-empty. -/
theorem C2_empty_name_accepted :
    perform_psk_handshake_server
        (compute_psk_hash (fun _ => List.replicate 32 171) [1, 2, 3])
        (PSK_MAGIC ++
          0 :: compute_psk_hash (fun _ => List.replicate 32 171) [1, 2, 3]) =
      (OK_BYTES, .ok []) ∧ (([] : List Nat)).length = 0 := by
  constructor
  · decide
  · rfl

/-! ## Claim C3 -/

/-- C3 (amended): the receiver applies no maximum frame length: a frame
with any nonzero declared length is read in full and its payload handed to
the decoder; a decode failure skips the frame and the loop continues with
the rest of the stream instead of terminating the connection. -/
theorem C3_no_length_limit (payload rest : List Nat) (hne : payload ≠ [])
    (hlen : payload.length < 4294967296) :
    recvFrames (mkFrame payload ++ rest) =
      (match decodeEvent payload with
       | some e => e :: recvFrames rest
       | none => recvFrames rest) :=
  recvFrames_frame payload rest hne hlen

/-- C3 witness at a concrete one-byte undecodable payload. -/
theorem C3_no_length_limit_witness :
    recvFrames (mkFrame [192] ++ []) =
      (match decodeEvent [192] with
       | some e => e :: recvFrames []
       | none => recvFrames []) :=
  C3_no_length_limit [192] [] (by decide) (by decide)

/-- C3 counterexample: a frame declaring length 100000 — beyond any
"low tens of KB" receive budget — is not treated as a protocol error: its
payload is read and fed to the decoder, and after the decode failure the
connection keeps running and processes the next frame. -/
theorem C3_oversized_frame_not_fatal :
    recvFrames (mkFrame (List.replicate 100000 192) ++ mkFrame (encodeEvent .Heartbeat)) =
      [.Heartbeat] := by
  have hne : List.replicate 100000 (192 : Nat) ≠ [] := by
    intro h
    have hlen := congrArg List.length h
    rw [List.length_replicate, List.length_nil] at hlen
    exact absurd hlen (by norm_num)
  have hlen : (List.replicate 100000 (192 : Nat)).length < 4294967296 := by
    rw [List.length_replicate]
    norm_num
  have hdec192 : ∀ l : List Nat, decodeEvent ((192 : Nat) :: l) = none := by
    intro l
    simp [decodeEvent, parseEvent, readMapLen, readInt]
  rw [recvFrames_frame _ _ hne hlen]
  rw [show (100000 : Nat) = 99999 + 1 from rfl, List.replicate_succ, hdec192]
  have hnil : recvFrames ([] : List Nat) = [] := by
    rw [recvFrames]
    simp
  have h2 : recvFrames (mkFrame (encodeEvent .Heartbeat) ++ []) = [.Heartbeat] := by
    rw [recvFrames_frame _ _ (encodeEvent_ne_nil _) (by decide),
      decodeEvent_encodeEvent _ (by decide)]
    simp [hnil]
  simpa using h2

/-! ## Claim C4 -/

/-- C4 (amended): heartbeats and read deadlines are asymmetric: the
agent-side sender (`handle_connection`) writes one zero-length frame per
idle 5-second tick and the host-side receiver (`handle_client`) breaks on
its 15-second read deadline; but the host-side sender has no heartbeat
branch and never writes a zero-length frame, so an idle host writes
nothing and only the host can detect a silent peer. -/
theorem C4_heartbeat_asymmetry (k : Nat) (events : List Event) :
    agentSendFrames (List.replicate k .tick) = List.replicate k heartbeatFrame ∧
    heartbeatFrame ∉ hostSendFrames events ∧
    hostSendFrames [] = [] ∧
    hostRecvContinues .timeout = false := by
  refine ⟨by simp [agentSendFrames], ?_, rfl, rfl⟩
  intro hmem
  rw [hostSendFrames, List.mem_map] at hmem
  obtain ⟨e, _, heq⟩ := hmem
  have hpos : 0 < (encodeEvent e).length :=
    List.length_pos.mpr (encodeEvent_ne_nil e)
  have hlen := congrArg List.length heq
  rw [mkFrame, List.length_append, beBytes_length] at hlen
  simp only [heartbeatFrame, List.length_cons, List.length_nil] at hlen
  omega

/-- C4 witness at concrete inputs. -/
theorem C4_heartbeat_asymmetry_witness :
    agentSendFrames (List.replicate 2 .tick) = List.replicate 2 heartbeatFrame ∧
    heartbeatFrame ∉ hostSendFrames [.Heartbeat] ∧
    hostSendFrames [] = [] ∧
    hostRecvContinues .timeout = false :=
  C4_heartbeat_asymmetry 2 [.Heartbeat]

/-- C4 counterexample: over an idle period the host-side sender emits no
frames at all — in particular not five zero-length heartbeats — and even
when draining events it never emits a zero-length frame, while a single
agent-side tick does. -/
theorem C4_host_sends_no_heartbeats :
    hostSendFrames [] = [] ∧
    agentSendFrames [.tick] = [heartbeatFrame] ∧
    heartbeatFrame ∉ hostSendFrames [.MouseMove 5 5, .Heartbeat] := by
  decide

/-! ## Claim C5 -/

/-- C5: for every well-formed event, serializing with MessagePack and
framing with a 4-byte big-endian length, then reading the frame and
deserializing, yields the original event (inside the actual receive loop
as well); and a frame with declared length 0 is consumed as a heartbeat
tick — the loop goes on with the rest of the stream — and is never decoded
into an event. -/
theorem C5_codec_roundtrip (e : Event) (rest : List Nat) (h : EventWF e) :
    readFrame (mkFrame (encodeEvent e) ++ rest) = some (some (encodeEvent e), rest) ∧
    decodeEvent (encodeEvent e) = some e ∧
    recvFrames (mkFrame (encodeEvent e) ++ rest) = e :: recvFrames rest ∧
    readFrame (heartbeatFrame ++ rest) = some (none, rest) ∧
    recvFrames (heartbeatFrame ++ rest) = recvFrames rest := by
  refine ⟨readFrame_mkFrame _ _ (encodeEvent_ne_nil e) (encodeEvent_length_lt e h),
    decodeEvent_encodeEvent e h, ?_, readFrame_heartbeat rest,
    recvFrames_heartbeat rest⟩
  rw [recvFrames_frame _ _ (encodeEvent_ne_nil e) (encodeEvent_length_lt e h),
    decodeEvent_encodeEvent e h]

/-- C5 witness at a concrete FocusGrant. -/
theorem C5_codec_roundtrip_witness :
    decodeEvent (encodeEvent (.FocusGrant "agentA" 10 540)) =
      some (.FocusGrant "agentA" 10 540) ∧
    readFrame (heartbeatFrame ++ [7]) = some (none, [7]) :=
  ⟨(C5_codec_roundtrip (.FocusGrant "agentA" 10 540) [7] (by decide)).2.1,
   (C5_codec_roundtrip (.FocusGrant "agentA" 10 540) [7] (by decide)).2.2.2.1⟩

/-! ## Claim C6 -/

/-- C6 (amended): `detect_edge` checks edges in the order Right, Left, Top,
Bottom and returns the first edge that has a configured neighbor and passes
its proximity test (None otherwise) — but the Bottom test compares against
the hard-coded screen height 1080, not the actual screen height (the
function does not even take a height argument). -/
theorem C6_detect_edge_hardcoded_height (t : Topology) (machine : String)
    (x y : Int) (screen_width threshold : Nat) :
    t.detect_edge machine x y screen_width threshold =
      detectEdgeClaim t machine x y screen_width 1080 threshold := by
  unfold Topology.detect_edge detectEdgeClaim
  norm_num

/-- C6 witness at a concrete topology and cursor position. -/
theorem C6_detect_edge_hardcoded_height_witness :
    Topology.detect_edge ⟨[("m", (0, 0))], [("m", [(Edge.Right, "r")])]⟩
        "m" 1915 500 1920 10 =
      detectEdgeClaim ⟨[("m", (0, 0))], [("m", [(Edge.Right, "r")])]⟩
        "m" 1915 500 1920 1080 10 :=
  C6_detect_edge_hardcoded_height ⟨[("m", (0, 0))], [("m", [(Edge.Right, "r")])]⟩
    "m" 1915 500 1920 10

/-- C6 counterexample: on a 1366×768 screen with only a Bottom neighbor and
threshold 10, the cursor at (100, 760) is within 10 px of the real bottom
edge, so the claim's test (y ≥ 768 − 10) detects Bottom — but the code,
comparing y ≥ 1080 − 10, returns None. -/
theorem C6_bottom_edge_wrong_height :
    Topology.detect_edge ⟨[("m", (0, 0))], [("m", [(Edge.Bottom, "below")])]⟩
        "m" 100 760 1366 10 = none ∧
    detectEdgeClaim ⟨[("m", (0, 0))], [("m", [(Edge.Bottom, "below")])]⟩
        "m" 100 760 1366 768 10 = some .Bottom := by
  decide

/-! ## Claim C7 -/

/-- An event that cannot commit a focus handoff under the S1 configuration:
any capture event whose cursor stays out of the right-edge trigger band
(`x ≤ 1910`), and not a `FocusRelease`. -/
def NonTriggeringS1 : Event → Prop
  | .MouseMove x _ => x ≤ 1910
  | .FocusRelease => False
  | _ => True

instance (e : Event) : Decidable (NonTriggeringS1 e) := by
  cases e <;> simp only [NonTriggeringS1] <;> infer_instance

theorem hostStep_nonTriggeringS1 (e : Event) (he : NonTriggeringS1 e) :
    hostStep hostCfgS1 initialHostState e = initialHostState := by
  cases e with
  | MouseMove x y =>
    have hx : x ≤ 1910 := he
    have hr : ¬(x > (1920 : Int) - 10) := by omega
    have hr2 : ¬((1910 : Int) < x) := by omega
    by_cases h1 : x < (10 : Int) <;>
    by_cases h3 : y < (10 : Int) <;>
    by_cases h4 : (1070 : Int) < y <;>
      simp [hostStep, hostCfgS1, initialHostState, assocGetStr, h1, h3, h4, hr, hr2]
  | FocusRelease => exact absurd he (by simp [NonTriggeringS1])
  | MouseClick b => rfl
  | MouseButtonPress b => rfl
  | MouseButtonRelease b => rfl
  | MouseScroll dx dy => rfl
  | KeyPress k => rfl
  | KeyRelease k => rfl
  | FocusGrant t x y => rfl
  | Heartbeat => rfl

theorem runHost_nonTriggeringS1 :
    ∀ (events : List Event), (∀ e ∈ events, NonTriggeringS1 e) →
    runHost hostCfgS1 initialHostState events = initialHostState := by
  intro events
  induction events with
  | nil => intro _; rfl
  | cons e es ih =>
    intro hall
    rw [runHost, List.foldl_cons]
    rw [hostStep_nonTriggeringS1 e (hall e (by simp))]
    exact ih (fun x hx => hall x (by simp [hx]))

/-- C7: with the S1 configuration (1920×1080 host screen, right edge mapped
to "agentA", threshold 10), a captured event stream that stays out of the
trigger band and ends with the cursor at (1915, 540) makes the host emit
exactly one FocusGrant — target "agentA" at (10, 540) — transition its
focus state to REMOTE("agentA"), and call grab_devices exactly once. -/
theorem C7_edge_handoff (init : List Event)
    (hinit : ∀ e ∈ init, NonTriggeringS1 e) :
    runHost hostCfgS1 initialHostState (init ++ [.MouseMove 1915 540]) =
      ⟨some "agentA", 1, 0, [.FocusGrant "agentA" 10 540]⟩ := by
  rw [runHost, List.foldl_append]
  have hbase := runHost_nonTriggeringS1 init hinit
  rw [runHost] at hbase
  rw [hbase]
  show hostStep hostCfgS1 initialHostState (.MouseMove 1915 540) = _
  decide

/-- C7 witness at a concrete capture stream. -/
theorem C7_edge_handoff_witness :
    runHost hostCfgS1 initialHostState
      ([.MouseMove 960 540, .KeyPress .KeyA] ++ [.MouseMove 1915 540]) =
      ⟨some "agentA", 1, 0, [.FocusGrant "agentA" 10 540]⟩ :=
  C7_edge_handoff [.MouseMove 960 540, .KeyPress .KeyA] (by decide)

/-! ## Claim C8 -/

/-- C8 (amended): the agent stores and injects cursor positions verbatim,
with no clamping: a FocusGrant sets the tracked position to exactly the
received (x, y) and injects MouseMove(x, y); a host MouseMove adds the host
delta to the tracked position and stores/injects the unclamped sum. -/
theorem C8_no_clamping (st : AgentState) (t : String)
    (x y cx cy lx ly hx hy : Int) :
    agentStep st (.FocusGrant t x y) =
      { st with has_focus := true, current_position := some (x, y),
                last_host_position := some (x, y),
                injected := st.injected ++ [.MouseMove x y] } ∧
    (st.has_focus = true → st.current_position = some (cx, cy) →
     st.last_host_position = some (lx, ly) →
     agentStep st (.MouseMove hx hy) =
       { st with current_position := some (cx + (hx - lx), cy + (hy - ly)),
                 last_host_position := some (hx, hy),
                 injected := st.injected ++
                   [.MouseMove (cx + (hx - lx)) (cy + (hy - ly))] }) := by
  refine ⟨rfl, ?_⟩
  intro h1 h2 h3
  simp [agentStep, h1, h2, h3]

/-- C8 witness at a concrete focused state. -/
theorem C8_no_clamping_witness :
    agentStep ⟨true, some (10, 540), some (10, 540), []⟩ (.MouseMove 2010 540) =
      ⟨true, some (2010, 540), some (2010, 540), [.MouseMove 2010 540]⟩ :=
  (C8_no_clamping ⟨true, some (10, 540), some (10, 540), []⟩ "x"
      0 0 10 540 10 540 2010 540).2 rfl rfl rfl

/-- C8 counterexample: a received FocusGrant at (2000, 900) on a 1366×768
agent screen is stored as the current position and injected verbatim; the
position is outside the on-screen rectangle and differs from what
clamp_to_screen would give, so no clamping happened. -/
theorem C8_unclamped_focus_grant :
    (runAgent initialAgentState [.FocusGrant "agentA" 2000 900]).current_position =
      some (2000, 900) ∧
    (runAgent initialAgentState [.FocusGrant "agentA" 2000 900]).injected =
      [.MouseMove 2000 900] ∧
    ¬ inScreenRect 1366 768 (2000, 900) ∧
    clampToScreenSpec 1366 768 (2000, 900) = (1365, 767) := by
  decide

/-! ## Claim C9 -/

/-- C9 (amended): an inbound FocusRelease returns the focus controller to
LOCAL and ungrabs devices; but every other successfully decoded inbound
event is forwarded unfiltered into the host's single merged event channel
and processed exactly like locally captured input — in LOCAL state an
inbound MouseMove inside the right-edge band triggers a FocusGrant and a
transition to REMOTE("agentA"). -/
theorem C9_inbound_demux (st : HostState) (e : Event) (rest : List Nat)
    (x y : Int) :
    (hostStep hostCfgS1 st .FocusRelease =
      { st with focus_target := none, ungrabs := st.ungrabs + 1 }) ∧
    (EventWF e →
      recvFrames (mkFrame (encodeEvent e) ++ rest) = e :: recvFrames rest) ∧
    (st.focus_target = none → 1910 < x →
      (hostStep hostCfgS1 st (.MouseMove x y)).focus_target = some "agentA" ∧
      (hostStep hostCfgS1 st (.MouseMove x y)).sent =
        st.sent ++ [.FocusGrant "agentA" 10 y]) := by
  refine ⟨rfl, ?_, ?_⟩
  · intro hwf
    rw [recvFrames_frame _ _ (encodeEvent_ne_nil e) (encodeEvent_length_lt e hwf),
      decodeEvent_encodeEvent e hwf]
  · intro hfocus hx
    have h1 : ¬(x < (10 : Int)) := by omega
    have h2 : x > (1920 : Int) - 10 := by omega
    have h3 : (1910 : Int) < x := by omega
    constructor <;>
      simp [hostStep, hostCfgS1, assocGetStr, hfocus, h1, h2, h3]

/-- C9 witness: a decoded inbound heartbeat is forwarded, and an inbound
edge-band MouseMove flips the focus state. -/
theorem C9_inbound_demux_witness :
    recvFrames (mkFrame (encodeEvent .Heartbeat) ++ []) =
      .Heartbeat :: recvFrames [] ∧
    (hostStep hostCfgS1 initialHostState (.MouseMove 1915 540)).focus_target =
      some "agentA" :=
  ⟨(C9_inbound_demux initialHostState .Heartbeat [] 1915 540).2.1 (by decide),
   ((C9_inbound_demux initialHostState .Heartbeat [] 1915 540).2.2 rfl
      (by decide)).1⟩

/-- C9 counterexample: an inbound MouseMove frame from an agent connection
is decoded, forwarded into the host's merged channel and processed like
captured input: starting LOCAL it produces a FocusGrant, a grab, and a
REMOTE("agentA") focus state — it is not ignored. -/
theorem C9_inbound_event_not_ignored :
    runHost hostCfgS1 initialHostState
        (recvFrames (mkFrame (encodeEvent (.MouseMove 1915 540)))) =
      ⟨some "agentA", 1, 0, [.FocusGrant "agentA" 10 540]⟩ := by
  have hnil : recvFrames ([] : List Nat) = [] := by
    rw [recvFrames]
    simp
  have h1 : recvFrames (mkFrame (encodeEvent (.MouseMove 1915 540)) ++ []) =
      [Event.MouseMove 1915 540] := by
    rw [recvFrames_frame _ _ (encodeEvent_ne_nil _) (encodeEvent_length_lt _ (by decide)),
      decodeEvent_encodeEvent _ (by decide)]
    simp [hnil]
  rw [List.append_nil] at h1
  rw [h1]
  decide

end Multishiva
